import Mathlib

/-!
# Verification of the Queenstown building-footprints animation core (src/script.js)

Shallow embedding of the algorithmic core of `src/script.js`:

* the animation driver `animate` (lines 283-312): a tick adds 0.5 to the
  tracked year value and wraps values exceeding 2017 back to 1880; a
  boolean `animating` flag gates every scheduled frame;
* the renderer factory `createRenderer` (lines 150-204): a pure function
  from a year value to a declarative render spec with an opacity ramp and
  a three-stop color ramp;
* the tooltip controller `createTooltip` (lines 317-372): closure state
  `(x, y, targetX, targetY, visible)` plus the easing loop `move`, and the
  `show` / `hide` entry points;
* the hover hit-test handler in `setupHoverTooltip` (lines 233-254).

Numeric state (year values, pixel coordinates) is modelled with exact
rationals `ℚ`; the JavaScript constants 0.5, 0.1 and the thresholds are
carried over verbatim as rationals.
-/

namespace Footprints

/-! ## Animation driver (`animate`, script.js lines 283-312) -/

/-- One tick's value update (script.js lines 292-295):
`value += 0.5; if (value > 2017) { value = 1880; }`. -/
def animTick (v : ℚ) : ℚ :=
  if v + 0.5 > 2017 then 1880 else v + 0.5

/-- `n` consecutive tick value updates. -/
def animTickN : ℕ → ℚ → ℚ
  | 0, v => v
  | n + 1, v => animTickN n (animTick v)

/-- The closure state of `animate` (script.js lines 284-285):
`let animating = true; let value = startValue;`. -/
structure AnimState where
  animating : Bool
  value : ℚ
  deriving Repr, DecidableEq

/-- State created by `animate(startValue)` before the first frame fires
(script.js lines 284-285). -/
def animateStart (startValue : ℚ) : AnimState :=
  { animating := true, value := startValue }

/-- One scheduled frame firing (script.js lines 287-303): if the
`animating` flag is off the frame returns immediately; otherwise it
updates the value and invokes the `setYear` callback.  The boolean
records whether the callback was invoked on this frame. -/
def frameFire (s : AnimState) : AnimState × Bool :=
  if s.animating then ({ s with value := animTick s.value }, true)
  else (s, false)

/-- The handle returned by `animate` (script.js lines 307-311): `remove`
sets `animating = false`. -/
def animRemove (s : AnimState) : AnimState :=
  { s with animating := false }

/-- `n` scheduled frames firing in sequence, counting how many of them
invoked the update callback. -/
def framesFire : ℕ → AnimState → AnimState × ℕ
  | 0, s => (s, 0)
  | n + 1, s =>
      let (s', fired) := frameFire s
      let (s'', k) := framesFire n s'
      (s'', (if fired then 1 else 0) + k)

/-! ## Renderer factory (`createRenderer`, script.js lines 150-204) -/

/-- One entry of the `opacityStops` array (script.js lines 151-160). -/
structure OpacityStop where
  opacity : ℚ
  value : ℚ
  deriving Repr, DecidableEq

/-- One entry of the color `stops` array (script.js lines 184-200). -/
structure ColorStop where
  value : ℚ
  color : String
  label : String
  deriving Repr, DecidableEq

/-- A member of the `visualVariables` array (script.js lines 169-202). -/
inductive VisualVariable where
  | opacityVar (fld : String) (stops : List OpacityStop) (showLegend : Bool)
  | colorVar (fld : String) (legendTitle : String) (stops : List ColorStop)
  deriving Repr, DecidableEq

/-- The renderer object returned by `createRenderer` (script.js
lines 162-203). -/
structure Renderer where
  rendererType : String
  symbolType : String
  symbolColor : String
  visualVariables : List VisualVariable
  deriving Repr, DecidableEq

/-- `createRenderer(year)` (script.js lines 150-204).  The JavaScript
label expressions `"in " + Math.floor(year)`, `"in " + (Math.floor(year) - 10)`
and `"before " + (Math.floor(year) - 20)` stringify the integer results of
`Math.floor`, modelled by `⌊year⌋ : ℤ` and `toString`. -/
def createRenderer (year : ℚ) : Renderer :=
  let opacityStops : List OpacityStop :=
    [ { opacity := 1, value := year },
      { opacity := 0, value := year + 1 } ]
  { rendererType := "simple"
    symbolType := "simple-fill"
    symbolColor := "rgb(0, 0, 0)"
    visualVariables :=
      [ .opacityVar "CNSTRCT_YR" opacityStops false,
        .colorVar "CNSTRCT_YR" "Titled:"
          [ { value := year, color := "#e7ed8a",
              label := "in " ++ toString ⌊year⌋ },
            { value := year - 10, color := "#eaed13",
              label := "in " ++ toString (⌊year⌋ - 10) },
            { value := year - 20, color := "#007af4",
              label := "before " ++ toString (⌊year⌋ - 20) } ] ] }

/-! ## Tooltip controller (`createTooltip`, script.js lines 317-372) -/

/-- A screen point as produced by the hit test (`hit.screenPoint`). -/
structure Point where
  x : ℚ
  y : ℚ
  deriving Repr, DecidableEq

/-- The closure state of `createTooltip` (script.js lines 330-334) together
with the DOM sinks it writes: `style.opacity` and `textElement.innerHTML`. -/
structure Tooltip where
  x : ℚ
  y : ℚ
  targetX : ℚ
  targetY : ℚ
  visible : Bool
  opacity : ℚ
  text : String
  deriving Repr, DecidableEq

/-- The fresh tooltip created by `createTooltip` (script.js lines 330-334):
`x = 0, y = 0, targetX = 0, targetY = 0, visible = false`. -/
def tooltipInit : Tooltip :=
  { x := 0, y := 0, targetX := 0, targetY := 0,
    visible := false, opacity := 0, text := "" }

/-- One invocation of the easing function `move` (script.js lines 337-349):
step 10% of the remaining distance on each axis, then either snap exactly
to the target (when both updated gaps are below 1 pixel) or reschedule
another frame.  The boolean records whether another frame was scheduled
via `requestAnimationFrame(move)`. -/
def moveFire (t : Tooltip) : Tooltip × Bool :=
  let x' := t.x + (t.targetX - t.x) * 0.1
  let y' := t.y + (t.targetY - t.y) * 0.1
  if |t.targetX - x'| < 1 ∧ |t.targetY - y'| < 1 then
    ({ t with x := t.targetX, y := t.targetY }, false)
  else
    ({ t with x := x', y := y' }, true)

/-- `n` invocations of `move` in sequence. -/
def moveN : ℕ → Tooltip → Tooltip
  | 0, t => t
  | n + 1, t => moveN n (moveFire t).1

/-- The state updates of `show(point, text)` (script.js lines 352-362): a
hidden tooltip first snaps its position to the point; the target, the
opacity, the visibility flag and the text are then set unconditionally. -/
def showAssign (t : Tooltip) (point : Point) (text : String) : Tooltip :=
  let t1 := if t.visible then t else { t with x := point.x, y := point.y }
  { t1 with targetX := point.x, targetY := point.y,
            opacity := 1, visible := true, text := text }

/-- The full `show(point, text)` entry point (script.js lines 352-365): the
state updates of `showAssign` followed by the synchronous `move()` call that
(re)starts the easing loop. -/
def showTooltip (t : Tooltip) (point : Point) (text : String) : Tooltip :=
  (moveFire (showAssign t point text)).1

/-- `hide()` (script.js lines 367-370): `style.opacity = 0; visible = false;`. -/
def hideTooltip (t : Tooltip) : Tooltip :=
  { t with opacity := 0, visible := false }

/-! ## Hover hit-test handler (`setupHoverTooltip`, script.js lines 210-255) -/

/-- A graphic of the building-footprints layer; the handler reads its
`CNSTRCT_YR` attribute (script.js line 249). -/
structure Graphic where
  id : ℕ
  cnstrct_yr : ℤ
  deriving Repr, DecidableEq

/-- The value a resolved hit test passes to the handler (script.js
lines 226-229): the first matching graphic and the hit screen point, or
`null` when no graphic of the layer was hit. -/
structure Hit where
  graphic : Graphic
  screenPoint : Point
  deriving Repr, DecidableEq

/-- The mutable state the `pointer-move` handler works on: the single
`highlight` handle (script.js line 211) and the tooltip. -/
structure HoverState where
  highlight : Option Graphic
  tooltip : Tooltip
  deriving Repr, DecidableEq

/-- Externally observable effects of the handler, in the order the code
performs them: `highlight.remove()`, `layerview.highlight(graphic)`,
`tooltip.show(...)`, `tooltip.hide()`. -/
inductive HoverAction where
  | removeHighlight (g : Graphic)
  | addHighlight (g : Graphic)
  | showTip (p : Point) (text : String)
  | hideTip
  deriving Repr, DecidableEq

/-- The resolved branch of the `pointer-move` handler (script.js
lines 235-252): the stored highlight, if any, is removed and cleared
first; then either the hit graphic is highlighted and the tooltip shown,
or the tooltip is hidden. -/
def onHitResolved (s : HoverState) (hit : Option Hit) : HoverState × List HoverAction :=
  let removeActs : List HoverAction :=
    match s.highlight with
    | some g => [.removeHighlight g]
    | none => []
  let s1 : HoverState := { s with highlight := none }
  match hit with
  | some h =>
      let text := "Titled in " ++ toString h.graphic.cnstrct_yr
      ({ highlight := some h.graphic,
         tooltip := showTooltip s1.tooltip h.screenPoint text },
       removeActs ++ [.addHighlight h.graphic, .showTip h.screenPoint text])
  | none =>
      ({ s1 with tooltip := hideTooltip s1.tooltip }, removeActs ++ [.hideTip])

/-- The outcome of the debounced asynchronous hit test: it either resolves
with an optional hit or rejects. -/
def onHitOutcome (s : HoverState) (outcome : Except Unit (Option Hit)) :
    HoverState × List HoverAction :=
  match outcome with
  | .ok hit => onHitResolved s hit
  | .error _ => (s, [])

/-! ## Helper definitions for the renderer theorems -/

/-- The stop lists of all opacity visual variables of a renderer. -/
def opacityStopLists (r : Renderer) : List (List OpacityStop) :=
  r.visualVariables.filterMap fun v =>
    match v with
    | .opacityVar _ stops _ => some stops
    | _ => none

/-- The stop lists of all color visual variables of a renderer. -/
def colorStopLists (r : Renderer) : List (List ColorStop) :=
  r.visualVariables.filterMap fun v =>
    match v with
    | .colorVar _ _ stops => some stops
    | _ => none

/-! ## Theorems -/

/-- C3: for every year `y`, `createRenderer y` carries exactly one opacity
visual variable, whose stop list has exactly two entries: opacity 1 at
value `y` and opacity 0 at value `y + 1`.  No validation is performed: the
equation holds for every rational input. -/
theorem createRenderer_opacity_ramp (y : ℚ) :
    opacityStopLists (createRenderer y) = [[⟨1, y⟩, ⟨0, y + 1⟩]] := rfl

/-- C4: for every year `y`, `createRenderer y` carries exactly one color
visual variable with exactly three stops, at values `y`, `y - 10`, `y - 20`
in strictly decreasing order, with the three fixed colors and the labels
computed from `⌊y⌋`.  The renderer is a pure function of `y`: the whole
spec is rebuilt by this equation on every call, nothing is cached. -/
theorem createRenderer_color_ramp (y : ℚ) :
    colorStopLists (createRenderer y) =
      [[⟨y, "#e7ed8a", "in " ++ toString ⌊y⌋⟩,
        ⟨y - 10, "#eaed13", "in " ++ toString (⌊y⌋ - 10)⟩,
        ⟨y - 20, "#007af4", "before " ++ toString (⌊y⌋ - 20)⟩]] ∧
    y > y - 10 ∧ y - 10 > y - 20 :=
  ⟨rfl, by linarith, by linarith⟩

/-- C7: `hide()` only fades the tooltip out — it sets the opacity to 0 and
the visible flag to false, leaving the current position, the target
position and the last shown text unchanged. -/
theorem hide_frame_effect (t : Tooltip) :
    (hideTooltip t).opacity = 0 ∧ (hideTooltip t).visible = false ∧
    (hideTooltip t).x = t.x ∧ (hideTooltip t).y = t.y ∧
    (hideTooltip t).targetX = t.targetX ∧ (hideTooltip t).targetY = t.targetY ∧
    (hideTooltip t).text = t.text :=
  ⟨rfl, rfl, rfl, rfl, rfl, rfl, rfl⟩

/-- C9: a rejected hover hit test is silently swallowed: the handler leaves
the hover state (tooltip and highlight alike) exactly as it was and
performs no externally visible action. -/
theorem hit_test_rejection_noop (s : HoverState) (e : Unit) :
    onHitOutcome s (.error e) = (s, []) := rfl

/-! ## Helper lemmas for the animation driver -/

lemma animTick_of_le (v : ℚ) (h : v + 0.5 ≤ 2017) : animTick v = v + 0.5 := by
  simp only [animTick]
  exact if_neg (not_lt.mpr h)

lemma animTick_of_gt (v : ℚ) (h : v + 0.5 > 2017) : animTick v = 1880 := by
  simp only [animTick]
  exact if_pos h

lemma animTick_le_2017 (v : ℚ) : animTick v ≤ 2017 := by
  by_cases h : v + 0.5 > 2017
  · rw [animTick_of_gt v h]; norm_num
  · rw [animTick_of_le v (not_lt.mp h)]
    exact not_lt.mp h

lemma animTick_ge_1880 (v : ℚ) (h : 1879.5 ≤ v) : 1880 ≤ animTick v := by
  by_cases h' : v + 0.5 > 2017
  · rw [animTick_of_gt v h']
  · rw [animTick_of_le v (not_lt.mp h')]
    linarith

lemma animTickN_succ_bounds (n : ℕ) (v : ℚ) (h : 1879.5 ≤ v) :
    1880 ≤ animTickN (n + 1) v ∧ animTickN (n + 1) v ≤ 2017 := by
  induction n generalizing v with
  | zero =>
      simp only [animTickN]
      exact ⟨animTick_ge_1880 v h, animTick_le_2017 v⟩
  | succ n ih =>
      have h1 : 1879.5 ≤ animTick v :=
        le_trans (by norm_num) (animTick_ge_1880 v h)
      simpa only [animTickN] using ih (animTick v) h1

lemma frameFire_stopped (s : AnimState) (h : s.animating = false) :
    frameFire s = (s, false) := by
  simp [frameFire, h]

lemma framesFire_stopped (n : ℕ) (s : AnimState) (h : s.animating = false) :
    framesFire n s = (s, 0) := by
  induction n with
  | zero => rfl
  | succ n ih => simp [framesFire, frameFire_stopped s h, ih]

/-- C1: each animation tick adds exactly 0.5 to the tracked value, wrapping
to 1880 when the incremented value exceeds 2017: as long as no intermediate
sum exceeds 2017, `n` ticks from `v0` reach `v0 + 0.5 * n`; a tick whose
incremented value exceeds 2017 yields 1880; from 2016.5 one tick yields
exactly 2017 (no wrap) and the next tick yields 1880. -/
theorem anim_tick_arithmetic :
    (∀ (v0 : ℚ) (n : ℕ),
        (∀ k : ℕ, 1 ≤ k → k ≤ n → v0 + k * 0.5 ≤ 2017) →
        animTickN n v0 = v0 + n * 0.5) ∧
    (∀ v : ℚ, v + 0.5 > 2017 → animTick v = 1880) ∧
    animTick 2016.5 = 2017 ∧ animTick 2017 = 1880 := by
  refine ⟨?_, animTick_of_gt, by norm_num [animTick], by norm_num [animTick]⟩
  intro v0 n
  induction n generalizing v0 with
  | zero => intro _; simp [animTickN]
  | succ n ih =>
      intro h
      have h1 : v0 + 0.5 ≤ 2017 := by
        have := h 1 le_rfl (by omega)
        push_cast at this
        linarith
      simp only [animTickN]
      rw [animTick_of_le v0 h1]
      rw [ih (v0 + 0.5) ?_]
      · push_cast; ring
      · intro k hk1 hkn
        have := h (k + 1) (by omega) (by omega)
        push_cast at this ⊢
        linarith

/-- Witness for C1: four unobstructed ticks from 2000 reach 2002, and a
tick from 2020 (incremented value 2020.5 > 2017) wraps to 1880. -/
theorem anim_tick_arithmetic_witness :
    animTickN 4 2000 = 2002 ∧ animTick 2020 = 1880 := by
  refine ⟨?_, anim_tick_arithmetic.2.1 2020 (by norm_num)⟩
  have h := anim_tick_arithmetic.1 2000 4 (by
    intro k h1 h4
    interval_cases k <;> norm_num)
  norm_num at h
  exact h

/-- C10: the tracked value never exceeds 2017 after an executed tick; a
start value above 2017 (the slider allows up to 2022) wraps to 1880 on the
very first tick; and from any start value at least 1879.5, after at least
one tick the value always lies in [1880, 2017]. -/
theorem anim_value_upper_bound :
    (∀ v : ℚ, animTick v ≤ 2017) ∧
    (∀ v : ℚ, v > 2017 → animTick v = 1880) ∧
    (∀ (v : ℚ) (n : ℕ), 1879.5 ≤ v → 1 ≤ n →
        1880 ≤ animTickN n v ∧ animTickN n v ≤ 2017) := by
  refine ⟨animTick_le_2017, ?_, ?_⟩
  · intro v hv
    exact animTick_of_gt v (by linarith)
  · intro v n hv hn
    obtain ⟨m, rfl⟩ : ∃ m, n = m + 1 := ⟨n - 1, by omega⟩
    exact animTickN_succ_bounds m v hv

/-- Witness for C10: a first tick from the slider value 2020 wraps to
1880, and five ticks from 1900 stay within [1880, 2017]. -/
theorem anim_value_upper_bound_witness :
    animTick 2020 = 1880 ∧
    1880 ≤ animTickN 5 1900 ∧ animTickN 5 1900 ≤ 2017 :=
  ⟨anim_value_upper_bound.2.1 2020 (by norm_num),
   (anim_value_upper_bound.2.2 1900 5 (by norm_num) (by norm_num)).1,
   (anim_value_upper_bound.2.2 1900 5 (by norm_num) (by norm_num)).2⟩

/-- C6: once `remove()` has set the `animating` flag to false, every
subsequently-fired scheduled frame is a no-op — it neither invokes the
update callback nor changes the state; in particular, stopping immediately
after `animate(v)` lets at most one further callback fire (in fact none in
this single-threaded model). -/
theorem stop_cancellation :
    (∀ s : AnimState, s.animating = false → frameFire s = (s, false)) ∧
    (∀ (n : ℕ) (s : AnimState),
        framesFire n (animRemove s) = (animRemove s, 0)) ∧
    (∀ (n : ℕ) (v : ℚ),
        (framesFire n (animRemove (animateStart v))).2 ≤ 1) := by
  refine ⟨frameFire_stopped, ?_, ?_⟩
  · intro n s
    exact framesFire_stopped n (animRemove s) rfl
  · intro n v
    rw [framesFire_stopped n (animRemove (animateStart v)) rfl]
    norm_num

/-- Witness for C6: a fired frame on a concretely stopped state is a
no-op. -/
theorem stop_cancellation_witness :
    frameFire { animating := false, value := 1900 } =
      ({ animating := false, value := 1900 }, false) :=
  stop_cancellation.1 { animating := false, value := 1900 } rfl

/-! ## Helper lemmas for the tooltip easing loop -/

lemma moveFire_at_target (t : Tooltip) (hx : t.x = t.targetX) (hy : t.y = t.targetY) :
    moveFire t = ({ t with x := t.targetX, y := t.targetY }, false) := by
  simp only [moveFire, hx, hy]
  norm_num

/-- C5: `show(point, text)` on a hidden tooltip snaps both the position and
the target to the point and makes the tooltip fully visible; on an already
visible tooltip the state updates leave the current position unchanged and
only retarget, so the subsequent easing (the synchronous `move()` call and
the frames it schedules) proceeds from the previous position toward the new
point; in both cases the text is replaced synchronously. -/
theorem show_state_machine :
    (∀ (t : Tooltip) (p : Point) (s : String), t.visible = false →
        showTooltip t p s =
          { t with x := p.x, y := p.y, targetX := p.x, targetY := p.y,
                   opacity := 1, visible := true, text := s }) ∧
    (∀ (t : Tooltip) (p : Point) (s : String), t.visible = true →
        showAssign t p s =
          { t with targetX := p.x, targetY := p.y,
                   opacity := 1, visible := true, text := s } ∧
        showTooltip t p s =
          (moveFire { t with targetX := p.x, targetY := p.y,
                             opacity := 1, visible := true, text := s }).1) := by
  constructor
  · intro t p s h
    have hassign : showAssign t p s =
        { t with x := p.x, y := p.y, targetX := p.x, targetY := p.y,
                 opacity := 1, visible := true, text := s } := by
      simp [showAssign, h]
    simp only [showTooltip, hassign]
    rw [moveFire_at_target _ rfl rfl]
  · intro t p s h
    have hassign : showAssign t p s =
        { t with targetX := p.x, targetY := p.y,
                 opacity := 1, visible := true, text := s } := by
      simp [showAssign, h]
    exact ⟨hassign, by simp only [showTooltip, hassign]⟩

/-- Witness for C5: a show on the freshly created (hidden) tooltip snaps to
(3, 4); a second show (now visible) only retargets and then eases. -/
theorem show_state_machine_witness :
    showTooltip tooltipInit ⟨3, 4⟩ "a" =
      { tooltipInit with x := 3, y := 4, targetX := 3, targetY := 4,
                         opacity := 1, visible := true, text := "a" } ∧
    showAssign { tooltipInit with visible := true } ⟨3, 4⟩ "b" =
      { { tooltipInit with visible := true } with
          targetX := 3, targetY := 4, opacity := 1, visible := true, text := "b" } ∧
    showTooltip { tooltipInit with visible := true } ⟨3, 4⟩ "b" =
      (moveFire { { tooltipInit with visible := true } with
          targetX := 3, targetY := 4, opacity := 1, visible := true, text := "b" }).1 :=
  ⟨show_state_machine.1 tooltipInit ⟨3, 4⟩ "a" rfl,
   (show_state_machine.2 { tooltipInit with visible := true } ⟨3, 4⟩ "b" rfl).1,
   (show_state_machine.2 { tooltipInit with visible := true } ⟨3, 4⟩ "b" rfl).2⟩

/-- C8: every resolved hover hit first removes and clears the stored
highlight (if any); on a hit exactly one new highlight is applied and the
tooltip is shown at the hit screen point with text `"Titled in "` followed
by the construction-year attribute; on a miss the tooltip is hidden and no
highlight is set — the resulting highlight is always `Option.map Hit.graphic hit`,
so at most one feature is highlighted at any time. -/
theorem hover_single_highlight :
    (∀ (s : HoverState) (g0 : Graphic) (h : Hit), s.highlight = some g0 →
        onHitResolved s (some h) =
          ({ highlight := some h.graphic,
             tooltip := showTooltip s.tooltip h.screenPoint
                          ("Titled in " ++ toString h.graphic.cnstrct_yr) },
           [.removeHighlight g0, .addHighlight h.graphic,
            .showTip h.screenPoint ("Titled in " ++ toString h.graphic.cnstrct_yr)])) ∧
    (∀ (s : HoverState) (h : Hit), s.highlight = none →
        onHitResolved s (some h) =
          ({ highlight := some h.graphic,
             tooltip := showTooltip s.tooltip h.screenPoint
                          ("Titled in " ++ toString h.graphic.cnstrct_yr) },
           [.addHighlight h.graphic,
            .showTip h.screenPoint ("Titled in " ++ toString h.graphic.cnstrct_yr)])) ∧
    (∀ (s : HoverState) (g0 : Graphic), s.highlight = some g0 →
        onHitResolved s none =
          ({ highlight := none, tooltip := hideTooltip s.tooltip },
           [.removeHighlight g0, .hideTip])) ∧
    (∀ s : HoverState, s.highlight = none →
        onHitResolved s none =
          ({ highlight := none, tooltip := hideTooltip s.tooltip },
           [.hideTip])) ∧
    (∀ (s : HoverState) (hit : Option Hit),
        (onHitResolved s hit).1.highlight = Option.map Hit.graphic hit) := by
  refine ⟨?_, ?_, ?_, ?_, ?_⟩
  · intro s g0 h hs
    simp [onHitResolved, hs]
  · intro s h hs
    simp [onHitResolved, hs]
  · intro s g0 hs
    simp [onHitResolved, hs]
  · intro s hs
    simp [onHitResolved, hs]
  · intro s hit
    cases hit <;> rfl

/-- Witness for C8: with graphic 1 highlighted, a resolved hit on graphic 2
removes the old highlight, adds the new one and shows the tooltip; a
resolved miss with graphic 1 highlighted removes it and hides the tooltip. -/
theorem hover_single_highlight_witness :
    onHitResolved ⟨some ⟨1, 1950⟩, tooltipInit⟩ (some ⟨⟨2, 1960⟩, ⟨5, 5⟩⟩) =
      ({ highlight := some ⟨2, 1960⟩,
         tooltip := showTooltip tooltipInit ⟨5, 5⟩
                      ("Titled in " ++ toString (1960 : ℤ)) },
       [.removeHighlight ⟨1, 1950⟩, .addHighlight ⟨2, 1960⟩,
        .showTip ⟨5, 5⟩ ("Titled in " ++ toString (1960 : ℤ))]) ∧
    onHitResolved ⟨some ⟨1, 1950⟩, tooltipInit⟩ none =
      ({ highlight := none, tooltip := hideTooltip tooltipInit },
       [.removeHighlight ⟨1, 1950⟩, .hideTip]) :=
  ⟨hover_single_highlight.1 ⟨some ⟨1, 1950⟩, tooltipInit⟩ ⟨1, 1950⟩ ⟨⟨2, 1960⟩, ⟨5, 5⟩⟩ rfl,
   hover_single_highlight.2.2.1 ⟨some ⟨1, 1950⟩, tooltipInit⟩ ⟨1, 1950⟩ rfl⟩

/-! ## Helper lemmas for easing-loop termination (C2) -/

/-- After the 10% step, the remaining gap on each axis is exactly 9/10 of
the previous gap, so `moveFire` can be restated with the snap condition on
the scaled gaps. -/
lemma moveFire_eq (t : Tooltip) :
    moveFire t =
      if |t.targetX - t.x| * (9 / 10) < 1 ∧ |t.targetY - t.y| * (9 / 10) < 1 then
        ({ t with x := t.targetX, y := t.targetY }, false)
      else
        ({ t with x := t.x + (t.targetX - t.x) * 0.1,
                  y := t.y + (t.targetY - t.y) * 0.1 }, true) := by
  have ex : t.targetX - (t.x + (t.targetX - t.x) * 0.1) = (t.targetX - t.x) * (9 / 10) := by
    ring
  have ey : t.targetY - (t.y + (t.targetY - t.y) * 0.1) = (t.targetY - t.y) * (9 / 10) := by
    ring
  simp only [moveFire, ex, ey, abs_mul]
  rw [show |(9 : ℚ) / 10| = 9 / 10 from by norm_num]

lemma moveFire_preserves (t : Tooltip) :
    (moveFire t).1.targetX = t.targetX ∧ (moveFire t).1.targetY = t.targetY ∧
    (moveFire t).1.visible = t.visible ∧ (moveFire t).1.opacity = t.opacity ∧
    (moveFire t).1.text = t.text := by
  rw [moveFire_eq]
  split <;> exact ⟨rfl, rfl, rfl, rfl, rfl⟩

lemma moveN_preserves (n : ℕ) (t : Tooltip) :
    (moveN n t).targetX = t.targetX ∧ (moveN n t).targetY = t.targetY ∧
    (moveN n t).visible = t.visible ∧ (moveN n t).opacity = t.opacity ∧
    (moveN n t).text = t.text := by
  induction n generalizing t with
  | zero => exact ⟨rfl, rfl, rfl, rfl, rfl⟩
  | succ n ih =>
      obtain ⟨h1, h2, h3, h4, h5⟩ := ih (moveFire t).1
      obtain ⟨g1, g2, g3, g4, g5⟩ := moveFire_preserves t
      exact ⟨h1.trans g1, h2.trans g2, h3.trans g3, h4.trans g4, h5.trans g5⟩

lemma moveFire_gap (t : Tooltip) :
    |t.targetX - (moveFire t).1.x| ≤ 9 / 10 * |t.targetX - t.x| ∧
    |t.targetY - (moveFire t).1.y| ≤ 9 / 10 * |t.targetY - t.y| := by
  rw [moveFire_eq]
  split
  · constructor <;> · simp; try positivity
  · constructor
    · refine le_of_eq ?_
      rw [show t.targetX - (t.x + (t.targetX - t.x) * 0.1) = (t.targetX - t.x) * (9 / 10)
            from by ring, abs_mul]
      rw [show |(9 : ℚ) / 10| = 9 / 10 from by norm_num]
      ring
    · refine le_of_eq ?_
      rw [show t.targetY - (t.y + (t.targetY - t.y) * 0.1) = (t.targetY - t.y) * (9 / 10)
            from by ring, abs_mul]
      rw [show |(9 : ℚ) / 10| = 9 / 10 from by norm_num]
      ring

lemma moveN_gap (n : ℕ) (t : Tooltip) :
    |t.targetX - (moveN n t).x| ≤ (9 / 10) ^ n * |t.targetX - t.x| ∧
    |t.targetY - (moveN n t).y| ≤ (9 / 10) ^ n * |t.targetY - t.y| := by
  induction n generalizing t with
  | zero => simp [moveN]
  | succ n ih =>
      obtain ⟨ihx, ihy⟩ := ih (moveFire t).1
      obtain ⟨p1, p2, _, _, _⟩ := moveFire_preserves t
      obtain ⟨gx, gy⟩ := moveFire_gap t
      constructor
      · calc |t.targetX - (moveN (n + 1) t).x|
            = |(moveFire t).1.targetX - (moveN n (moveFire t).1).x| := by
              rw [p1]; rfl
          _ ≤ (9 / 10) ^ n * |(moveFire t).1.targetX - (moveFire t).1.x| := ihx
          _ = (9 / 10) ^ n * |t.targetX - (moveFire t).1.x| := by rw [p1]
          _ ≤ (9 / 10) ^ n * (9 / 10 * |t.targetX - t.x|) :=
              mul_le_mul_of_nonneg_left gx (by positivity)
          _ = (9 / 10) ^ (n + 1) * |t.targetX - t.x| := by ring
      · calc |t.targetY - (moveN (n + 1) t).y|
            = |(moveFire t).1.targetY - (moveN n (moveFire t).1).y| := by
              rw [p2]; rfl
          _ ≤ (9 / 10) ^ n * |(moveFire t).1.targetY - (moveFire t).1.y| := ihy
          _ = (9 / 10) ^ n * |t.targetY - (moveFire t).1.y| := by rw [p2]
          _ ≤ (9 / 10) ^ n * (9 / 10 * |t.targetY - t.y|) :=
              mul_le_mul_of_nonneg_left gy (by positivity)
          _ = (9 / 10) ^ (n + 1) * |t.targetY - t.y| := by ring

lemma moveFire_snap (t : Tooltip) (hx : |t.targetX - t.x| < 1) (hy : |t.targetY - t.y| < 1) :
    moveFire t = ({ t with x := t.targetX, y := t.targetY }, false) := by
  rw [moveFire_eq, if_pos]
  constructor
  · nlinarith [abs_nonneg (t.targetX - t.x)]
  · nlinarith [abs_nonneg (t.targetY - t.y)]

lemma moveN_add (m n : ℕ) (t : Tooltip) : moveN (m + n) t = moveN n (moveN m t) := by
  induction m generalizing t with
  | zero => rw [Nat.zero_add]; rfl
  | succ m ih =>
      rw [show m + 1 + n = (m + n) + 1 from by omega]
      simp only [moveN]
      exact ih (moveFire t).1

lemma moveN_concrete (k : ℕ) (hk : k ≤ 43) :
    moveN k { tooltipInit with targetX := 100 } =
      { tooltipInit with x := 100 - 100 * ((9 : ℚ) / 10) ^ k, targetX := 100 } := by
  induction k with
  | zero => norm_num [moveN, tooltipInit]
  | succ k ih =>
      have hx := ih (by omega)
      have h1 : moveN (k + 1) { tooltipInit with targetX := 100 } =
          (moveFire (moveN k { tooltipInit with targetX := 100 })).1 := by
        rw [moveN_add k 1]
        rfl
      have hge : (1 : ℚ) ≤ 100 * ((9 : ℚ) / 10) ^ (k + 1) := by
        have h43 : ((9 : ℚ) / 10) ^ 43 ≤ ((9 : ℚ) / 10) ^ (k + 1) :=
          pow_le_pow_of_le_one (by norm_num) (by norm_num) (by omega)
        have h100 := mul_le_mul_of_nonneg_left h43 (by norm_num : (0 : ℚ) ≤ 100)
        have h1le : (1 : ℚ) ≤ 100 * ((9 : ℚ) / 10) ^ 43 := by norm_num
        linarith
      rw [h1, hx, moveFire_eq]
      split
      · rename_i hc
        exfalso
        simp only [tooltipInit] at hc
        obtain ⟨hc1, _⟩ := hc
        have habs : |(100 : ℚ) - (100 - 100 * ((9 : ℚ) / 10) ^ k)| = 100 * ((9 : ℚ) / 10) ^ k := by
          rw [show (100 : ℚ) - (100 - 100 * ((9 : ℚ) / 10) ^ k) = 100 * ((9 : ℚ) / 10) ^ k
                from by ring]
          exact abs_of_nonneg (by positivity)
        rw [habs] at hc1
        have hmul : (100 : ℚ) * ((9 : ℚ) / 10) ^ (k + 1) = 100 * ((9 : ℚ) / 10) ^ k * (9 / 10) := by
          ring
        linarith
      · simp only [tooltipInit]
        simp only [Tooltip.mk.injEq]
        norm_num
        ring

lemma moveN_concrete_44 :
    moveFire (moveN 43 { tooltipInit with targetX := 100 }) =
      ({ tooltipInit with x := 100, targetX := 100 }, false) := by
  rw [moveN_concrete 43 le_rfl, moveFire_eq, if_pos]
  · simp [tooltipInit]
  · constructor
    · simp only [tooltipInit]
      rw [show (100 : ℚ) - (100 - 100 * ((9 : ℚ) / 10) ^ 43) = 100 * ((9 : ℚ) / 10) ^ 43
            from by ring]
      rw [abs_of_nonneg (by positivity)]
      norm_num
    · simp only [tooltipInit]
      norm_num

/-- C2: the tooltip easing loop terminates for every initial position and
fixed target: some number of frames reaches a state whose position equals
the target exactly (the final frame snaps), after which no further frame
is scheduled; concretely, starting at position (0, 0) with target (100, 0),
44 invocations of `move` reach exactly (100, 0), and the 44th invocation
(fired on the state after 43 steps) does not reschedule. -/
theorem easing_loop_terminates :
    (∀ t : Tooltip, ∃ n : ℕ,
        moveN n t = { t with x := t.targetX, y := t.targetY } ∧
        (moveFire (moveN n t)).2 = false) ∧
    moveN 44 { tooltipInit with targetX := 100 } =
      { tooltipInit with x := 100, targetX := 100 } ∧
    (moveFire (moveN 43 { tooltipInit with targetX := 100 })).2 = false := by
  refine ⟨?_, ?_, ?_⟩
  · intro t
    have hgx0 : (0 : ℚ) ≤ |t.targetX - t.x| := abs_nonneg _
    have hgy0 : (0 : ℚ) ≤ |t.targetY - t.y| := abs_nonneg _
    set M : ℚ := |t.targetX - t.x| + |t.targetY - t.y| + 1 with hM
    have hMpos : (0 : ℚ) < M := by rw [hM]; linarith
    obtain ⟨n, hn⟩ :=
      exists_pow_lt_of_lt_one (div_pos one_pos hMpos) (by norm_num : (9 : ℚ) / 10 < 1)
    have hpow : (0 : ℚ) ≤ ((9 : ℚ) / 10) ^ n := by positivity
    have hgx : ((9 : ℚ) / 10) ^ n * |t.targetX - t.x| < 1 := by
      calc ((9 : ℚ) / 10) ^ n * |t.targetX - t.x|
          ≤ ((9 : ℚ) / 10) ^ n * M := by
            apply mul_le_mul_of_nonneg_left _ hpow
            rw [hM]; linarith
        _ < 1 / M * M := mul_lt_mul_of_pos_right hn hMpos
        _ = 1 := by field_simp
    have hgy : ((9 : ℚ) / 10) ^ n * |t.targetY - t.y| < 1 := by
      calc ((9 : ℚ) / 10) ^ n * |t.targetY - t.y|
          ≤ ((9 : ℚ) / 10) ^ n * M := by
            apply mul_le_mul_of_nonneg_left _ hpow
            rw [hM]; linarith
        _ < 1 / M * M := mul_lt_mul_of_pos_right hn hMpos
        _ = 1 := by field_simp
    have hx : |t.targetX - (moveN n t).x| < 1 := lt_of_le_of_lt (moveN_gap n t).1 hgx
    have hy : |t.targetY - (moveN n t).y| < 1 := lt_of_le_of_lt (moveN_gap n t).2 hgy
    obtain ⟨p1, p2, p3, p4, p5⟩ := moveN_preserves n t
    have hux : |(moveN n t).targetX - (moveN n t).x| < 1 := by rw [p1]; exact hx
    have huy : |(moveN n t).targetY - (moveN n t).y| < 1 := by rw [p2]; exact hy
    have hsnap := moveFire_snap (moveN n t) hux huy
    have hfinal : moveN (n + 1) t = { t with x := t.targetX, y := t.targetY } := by
      have hstep : moveN (n + 1) t = (moveFire (moveN n t)).1 := by
        rw [moveN_add n 1]
        rfl
      have hsnap1 : (moveFire (moveN n t)).1 =
          { moveN n t with x := (moveN n t).targetX, y := (moveN n t).targetY } := by
        rw [hsnap]
      rw [hstep, hsnap1]
      simp [Tooltip.mk.injEq, p1, p2, p3, p4, p5]
    refine ⟨n + 1, hfinal, ?_⟩
    rw [hfinal, moveFire_at_target _ rfl rfl]
  · rw [show (44 : ℕ) = 43 + 1 from rfl, moveN_add 43 1,
        show ∀ u : Tooltip, moveN 1 u = (moveFire u).1 from fun u => rfl,
        moveN_concrete_44]
  · rw [moveN_concrete_44]

end Footprints
